import Mathlib

/-!
Shallow embedding of the points-and-compliance ledger of the waste-management API
(`server/routes/incentives.js`, `server/routes/collection.js`, `server/routes/waste.js`).

JS numbers are modeled as rationals (`ℚ`), `Math.floor` as `Int.floor`, timestamps in
milliseconds as `ℕ`.  Each route handler is modeled as a pure function on the documents it
reads and writes; a Joi-validation failure or a domain failure (HTTP 4xx) is modeled as an
outcome constructor that leaves the state unchanged, exactly as the handler returns before
performing any write.
-/

namespace WasteApi

/-- Quality grades accepted by `rewardSchema` (incentives.js line 14):
`Joi.string().valid('A', 'B', 'C', 'D')`. -/
inductive QualityGrade
  | A
  | B
  | C
  | D
deriving DecidableEq

/-- incentives.js line 64: `{ 'A': 2, 'B': 1.5, 'C': 1, 'D': 0.5 }[qualityGrade]`. -/
def qualityMultiplier : QualityGrade → ℚ
  | QualityGrade.A => 2
  | QualityGrade.B => 3 / 2
  | QualityGrade.C => 1
  | QualityGrade.D => 1 / 2

/-- incentives.js line 63: `basePoints = Math.floor(wasteQuantity * 0.1)`. -/
def basePoints (wasteQuantity : ℚ) : ℤ :=
  ⌊wasteQuantity * (1 / 10)⌋

/-- incentives.js lines 65-67:
`scoreMultiplier = segregationScore / 100`;
`totalPoints = Math.floor(basePoints * qualityMultiplier * scoreMultiplier)`. -/
def totalPoints (wasteQuantity : ℚ) (g : QualityGrade) (segregationScore : ℚ) : ℤ :=
  ⌊(basePoints wasteQuantity : ℚ) * qualityMultiplier g * (segregationScore / 100)⌋

/-- The success payload of POST /bulk-generator/reward (incentives.js lines 99-107):
`totalPointsAwarded` and `newTotalPoints`. -/
structure AwardResult where
  pointsAwarded : ℤ
  newBalance : ℚ
deriving DecidableEq

/-- POST /api/incentives/bulk-generator/reward (incentives.js lines 42-108), restricted to a
bulk generator that exists, as a function of its current `incentives.points` balance.
`rewardSchema` requires `wasteQuantity ≥ 0` and `0 ≤ segregationScore ≤ 100`; a validation
failure returns 400 before any write, modeled as `none`.  On success the handler stores the
reward document with `pointsAwarded = totalPoints` and sets the balance to
`currentPoints + totalPoints` (lines 85-97). -/
def bulkGeneratorReward (balance : ℚ) (wasteQuantity : ℚ) (g : QualityGrade)
    (segregationScore : ℚ) : Option AwardResult :=
  if 0 ≤ wasteQuantity ∧ 0 ≤ segregationScore ∧ segregationScore ≤ 100 then
    some ⟨totalPoints wasteQuantity g segregationScore,
          balance + (totalPoints wasteQuantity g segregationScore : ℚ)⟩
  else
    none

/-- Outcome of POST /api/incentives/redeem (incentives.js lines 203-281). -/
inductive RedeemOutcome
  | validationError
  | insufficientPoints (available : ℚ) (requested : ℤ)
  | success (previousBalance newBalance : ℚ) (pointsRedeemed : ℤ)
deriving DecidableEq

/-- The slice of a user document touched by the redeem route: the point balance and the
`point_redemptions` records created for this user (each holding its `points` field). -/
structure RedeemState where
  balance : ℚ
  redemptions : List ℚ
deriving DecidableEq

/-- POST /api/incentives/redeem (incentives.js lines 203-281), restricted to a user that
exists.  `redeemSchema` requires `points` to be an integer ≥ 1 (line 22); then the handler
rejects with `Insufficient points. Available: _, Required: _` when `availablePoints < points`
(lines 238-243) without writing anything; otherwise it creates the redemption document and
sets the balance to `availablePoints - points` (lines 257-269), answering with
`previousBalance`, `newBalance` and `pointsRedeemed` (lines 276-278). -/
def redeemPoints (st : RedeemState) (points : ℤ) : RedeemState × RedeemOutcome :=
  if points < 1 then
    (st, RedeemOutcome.validationError)
  else if st.balance < (points : ℚ) then
    (st, RedeemOutcome.insufficientPoints st.balance points)
  else
    ({ balance := st.balance - (points : ℚ), redemptions := st.redemptions ++ [(points : ℚ)] },
     RedeemOutcome.success st.balance (st.balance - (points : ℚ)) points)

/-- A point-affecting operation on one account, as in the spec's LedgerService:
an award (POST /bulk-generator/reward) or a redemption (POST /redeem). -/
inductive LedgerOp
  | award (wasteQuantity : ℚ) (grade : QualityGrade) (segregationScore : ℚ)
  | redeem (points : ℤ)

/-- Effect of one ledger operation on a single account's point balance; a request that fails
validation or the sufficiency check returns HTTP 400 without writing, leaving the balance
unchanged. -/
def applyLedgerOp (balance : ℚ) : LedgerOp → ℚ
  | LedgerOp.award q g s =>
      match bulkGeneratorReward balance q g s with
      | some r => r.newBalance
      | none => balance
  | LedgerOp.redeem p => (redeemPoints ⟨balance, []⟩ p).1.balance

/-- Segregation qualities accepted by `pickupCompleteSchema` (collection.js line 28):
`Joi.string().valid('excellent', 'good', 'poor', 'rejected')`. -/
inductive SegregationQuality
  | excellent
  | good
  | poor
  | rejected
deriving DecidableEq

/-- collection.js lines 259-261: the nested conditional
`q === 'excellent' ? 10 : q === 'good' ? 8 : q === 'poor' ? 4 : 0`. -/
def qualityScore : SegregationQuality → ℤ
  | SegregationQuality.excellent => 10
  | SegregationQuality.good => 8
  | SegregationQuality.poor => 4
  | SegregationQuality.rejected => 0

/-- collection.js line 263:
`newScore = Math.min(100, (household.segregationCompliance?.score || 0) + qualityScore)`. -/
def pickupCompleteScore (score : ℤ) (q : SegregationQuality) : ℤ :=
  min 100 (score + qualityScore q)

/-- One entry of `segregationCompliance.violations` as appended by collection.js
lines 314-321. -/
structure ViolationEntry where
  type : String
  reason : String
deriving DecidableEq

/-- The slice of a household document touched by the compliance routes:
`segregationCompliance.score` and `segregationCompliance.violations`. -/
structure ComplianceState where
  score : ℤ
  violations : List ViolationEntry
deriving DecidableEq

/-- PUT /api/collection/pickup/reject (collection.js lines 305-324), restricted to a
household that exists: `Math.max(0, score - 15)` and an appended violation of type
`pickup_rejection`. -/
def rejectPickup (st : ComplianceState) (reason : String) : ComplianceState :=
  { score := max 0 (st.score - 15),
    violations := st.violations ++ [{ type := "pickup_rejection", reason := reason }] }

/-- PUT /api/waste/household/segregation-status (waste.js lines 101-118): writes the
submitted `complianceScore` into `segregationCompliance.score` directly — the handler only
checks that the field is present, with no range check and no clamping. -/
def setSegregationStatus (st : ComplianceState) (complianceScore : ℤ) : ComplianceState :=
  { st with score := complianceScore }

/-- A compliance-score operation on one household: a pickup-quality delta
(POST /pickup/complete), a rejection delta (PUT /pickup/reject), or a direct assessment set
(PUT /household/segregation-status). -/
inductive ComplianceOp
  | pickupQuality (q : SegregationQuality)
  | rejection (reason : String)
  | assessment (complianceScore : ℤ)

/-- Effect of one compliance operation on the household's compliance slice. -/
def applyComplianceOp (st : ComplianceState) : ComplianceOp → ComplianceState
  | ComplianceOp.pickupQuality q => { st with score := pickupCompleteScore st.score q }
  | ComplianceOp.rejection r => rejectPickup st r
  | ComplianceOp.assessment v => setSegregationStatus st v

/-- A freshly registered household or citizen starts with
`segregationCompliance: { score: 0, violations: [] }` (waste.js lines 81-85 and the citizen
registration route). -/
def initialCompliance : ComplianceState :=
  { score := 0, violations := [] }

/-- Status values a penalty document can carry: `issued` and `paid` are written by the
routes; `overdue` and `cancelled` complete the status enum of the data model. -/
inductive PenaltyStatus
  | issued
  | paid
  | overdue
  | cancelled
deriving DecidableEq

/-- A document of the `penalties` collection, in the fields the ledger routes read and
write (incentives.js lines 295-303 and 423-429).  Timestamps are milliseconds. -/
structure Penalty where
  amount : ℚ
  status : PenaltyStatus
  paidAt : Option ℕ
  paidAmount : Option ℚ
  paymentMethod : Option String
  dueDate : ℕ
deriving DecidableEq

/-- Outcome of PUT /api/penalties/payment (incentives.js lines 391-457). -/
inductive PayOutcome
  | validationError
  | alreadyPaid
  | insufficientPayment (required paid : ℚ)
  | success
deriving DecidableEq

/-- PUT /api/penalties/payment (incentives.js lines 391-457), restricted to a penalty that
exists.  Guard order follows the source: the JS-truthiness check
`!penaltyId || !paymentMethod || !paidAmount` (line 394, so an empty method string or a zero
paid amount is a 400), then `penalty.status === 'paid'` (line 409, `Penalty already paid`),
then `paidAmount < penalty.amount` (line 416, `Insufficient payment`), then the update to
`status: 'paid'` with `paidAt`, `paymentMethod` and `paidAmount` (lines 423-431). -/
def payPenalty (p : Penalty) (paidAmount : ℚ) (paymentMethod : String) (now : ℕ) :
    Penalty × PayOutcome :=
  if paymentMethod = "" ∨ paidAmount = 0 then
    (p, PayOutcome.validationError)
  else if p.status = PenaltyStatus.paid then
    (p, PayOutcome.alreadyPaid)
  else if paidAmount < p.amount then
    (p, PayOutcome.insufficientPayment p.amount paidAmount)
  else
    ({ p with
        status := PenaltyStatus.paid,
        paidAt := some now,
        paidAmount := some paidAmount,
        paymentMethod := some paymentMethod },
     PayOutcome.success)

/-- One entry of the violator's `penaltyHistory` as appended by POST /api/penalties/impose
(incentives.js lines 317-323): a summary of the penalty with status `'unpaid'`. -/
structure HistoryEntry where
  amount : ℚ
  status : String
deriving DecidableEq

/-- The slice of the violator's document touched by POST /impose: the point balance (which
the route never writes) and the penalty history. -/
structure ViolatorAccount where
  pointBalance : ℚ
  penaltyHistory : List HistoryEntry
deriving DecidableEq

/-- Milliseconds per day, as spelled `24 * 60 * 60 * 1000` in the source. -/
def msPerDay : ℕ := 24 * 60 * 60 * 1000

/-- POST /api/penalties/impose (incentives.js lines 286-341), restricted to a violator that
exists.  `penaltySchema` validates `amount` with `Joi.number().min(0)` (line 32); a failure
is a 400 before any write, modeled as `none`.  On success the penalty document is created
with `status: 'issued'` and `dueDate` defaulting to now + 30 days (line 302), a summary
entry with status `'unpaid'` is appended to the violator's history (lines 317-333), and the
violator's point balance is not touched. -/
def imposePenalty (now : ℕ) (amount : ℚ) (dueDate : Option ℕ) (violator : ViolatorAccount) :
    Option (Penalty × ViolatorAccount) :=
  if 0 ≤ amount then
    some ({ amount := amount,
            status := PenaltyStatus.issued,
            paidAt := none,
            paidAmount := none,
            paymentMethod := none,
            dueDate := dueDate.getD (now + 30 * msPerDay) },
          { violator with
              penaltyHistory := violator.penaltyHistory ++ [{ amount := amount, status := "unpaid" }] })
  else
    none

/-- Outcome of POST /api/incentives/citizen/award (incentives.js lines 155-198). -/
inductive CitizenAwardOutcome
  | validationError
  | success (newTotalPoints : ℚ)
deriving DecidableEq

/-- POST /api/incentives/citizen/award (incentives.js lines 155-198), restricted to a
citizen that exists, as a function of the citizen's `rewardPoints`.  The only validation is
the JS-truthiness check `!citizenId || !points || !reason` (line 158): a zero points value
or an empty reason is rejected as a 400; there is no range, sign or integrality check.  On
success the handler stores a `citizen_rewards` document with `pointsAwarded = points` and
sets `rewardPoints` to `(citizen.rewardPoints || 0) + points` (lines 185-188). -/
def citizenAward (rewardPoints : ℚ) (points : ℚ) (reason : String) :
    ℚ × CitizenAwardOutcome :=
  if points = 0 ∨ reason = "" then
    (rewardPoints, CitizenAwardOutcome.validationError)
  else
    (rewardPoints + points, CitizenAwardOutcome.success (rewardPoints + points))

/-- Whole-system state for the conservation property: the account documents (document id
paired with its point balance — Firestore assigns a fresh id to every created document), the
`pointsAwarded` fields of all stored reward documents (`incentive_rewards` and
`citizen_rewards`), and the `points` fields of all stored `point_redemptions` documents. -/
structure SystemState where
  accounts : List (ℕ × ℚ)
  awardedEvents : List ℚ
  redeemedEvents : List ℚ

/-- The empty store. -/
def initialSystem : SystemState :=
  { accounts := [], awardedEvents := [], redeemedEvents := [] }

/-- An operation of the points ledger at the system level: account registration (balance 0,
citizen registration route / waste.js lines 185-199), a bulk-generator reward, a citizen
bonus award, or a redemption. -/
inductive SystemOp
  | register (id : ℕ)
  | bulkReward (id : ℕ) (wasteQuantity : ℚ) (grade : QualityGrade) (segregationScore : ℚ)
  | citizenBonus (id : ℕ) (points : ℚ) (reason : String)
  | redemption (id : ℕ) (points : ℤ)

/-- `FirestoreService.getById` on the account collections: the balance of the document with
the given id. -/
def lookupBalance (accounts : List (ℕ × ℚ)) (id : ℕ) : Option ℚ :=
  (accounts.find? (fun a => a.1 = id)).map (fun a => a.2)

/-- `FirestoreService.update` of the balance field of the document with the given id. -/
def updateBalance (accounts : List (ℕ × ℚ)) (id : ℕ) (newBal : ℚ) : List (ℕ × ℚ) :=
  accounts.map (fun a => if a.1 = id then (a.1, newBal) else a)

/-- Effect of one ledger operation on the whole store.  A handler that answers 404 (unknown
account) or 400 (validation / insufficiency) returns before any write, so the store is
unchanged; a successful award or redemption writes both the event document and the new
balance before answering. -/
def applySystemOp (st : SystemState) : SystemOp → SystemState
  | SystemOp.register id =>
      match lookupBalance st.accounts id with
      | some _ => st
      | none => { st with accounts := st.accounts ++ [(id, 0)] }
  | SystemOp.bulkReward id q g s =>
      match lookupBalance st.accounts id with
      | none => st
      | some b =>
          match bulkGeneratorReward b q g s with
          | none => st
          | some r =>
              { st with
                  accounts := updateBalance st.accounts id r.newBalance,
                  awardedEvents := st.awardedEvents ++ [(r.pointsAwarded : ℚ)] }
  | SystemOp.citizenBonus id p reason =>
      match lookupBalance st.accounts id with
      | none => st
      | some b =>
          match citizenAward b p reason with
          | (_, CitizenAwardOutcome.validationError) => st
          | (newBal, CitizenAwardOutcome.success _) =>
              { st with
                  accounts := updateBalance st.accounts id newBal,
                  awardedEvents := st.awardedEvents ++ [p] }
  | SystemOp.redemption id p =>
      match lookupBalance st.accounts id with
      | none => st
      | some b =>
          match redeemPoints ⟨b, []⟩ p with
          | (_, RedeemOutcome.validationError) => st
          | (_, RedeemOutcome.insufficientPoints _ _) => st
          | (st', RedeemOutcome.success _ _ _) =>
              { st with
                  accounts := updateBalance st.accounts id st'.balance,
                  redeemedEvents := st.redeemedEvents ++ [(p : ℚ)] }

/-- GET /api/incentives/statistics (incentives.js lines 540-542 and 580): total points
awarded summed over the stored reward documents, minus total points redeemed summed over the
stored redemption documents — `netPointsInCirculation`, derived fresh from the event
records on every request. -/
def netPointsInCirculation (st : SystemState) : ℚ :=
  st.awardedEvents.sum - st.redeemedEvents.sum

/-- The sum of all accounts' point balances. -/
def sumBalances (st : SystemState) : ℚ :=
  (st.accounts.map (fun a => a.2)).sum

/-! ## Helper lemmas -/

theorem qualityMultiplier_pos (g : QualityGrade) : 0 < qualityMultiplier g := by
  cases g <;> norm_num [qualityMultiplier]

theorem basePoints_nonneg {q : ℚ} (hq : 0 ≤ q) : 0 ≤ basePoints q := by
  unfold basePoints
  exact Int.floor_nonneg.mpr (by positivity)

theorem totalPoints_nonneg {q s : ℚ} (g : QualityGrade) (hq : 0 ≤ q) (hs : 0 ≤ s) :
    0 ≤ totalPoints q g s := by
  unfold totalPoints
  apply Int.floor_nonneg.mpr
  have h1 : (0 : ℚ) ≤ (basePoints q : ℚ) := by exact_mod_cast basePoints_nonneg hq
  have h2 := (qualityMultiplier_pos g).le
  positivity

theorem applyLedgerOp_nonneg_int (b : ℚ) (op : LedgerOp)
    (h0 : 0 ≤ b) (hint : ∃ n : ℤ, b = (n : ℚ)) :
    0 ≤ applyLedgerOp b op ∧ ∃ n : ℤ, applyLedgerOp b op = (n : ℚ) := by
  cases op with
  | award q g s =>
      by_cases hc : 0 ≤ q ∧ 0 ≤ s ∧ s ≤ 100
      · have hval : applyLedgerOp b (LedgerOp.award q g s)
            = b + (totalPoints q g s : ℚ) := by
          simp [applyLedgerOp, bulkGeneratorReward, hc]
        rw [hval]
        refine ⟨?_, ?_⟩
        · have := totalPoints_nonneg g hc.1 hc.2.1
          have hq : (0 : ℚ) ≤ (totalPoints q g s : ℚ) := by exact_mod_cast this
          linarith
        · obtain ⟨n, rfl⟩ := hint
          exact ⟨n + totalPoints q g s, by push_cast; ring⟩
      · have hval : applyLedgerOp b (LedgerOp.award q g s) = b := by
          simp [applyLedgerOp, bulkGeneratorReward, hc]
        rw [hval]
        exact ⟨h0, hint⟩
  | redeem p =>
      by_cases h1 : p < 1
      · have hval : applyLedgerOp b (LedgerOp.redeem p) = b := by
          simp [applyLedgerOp, redeemPoints, h1]
        rw [hval]
        exact ⟨h0, hint⟩
      · by_cases h2 : b < (p : ℚ)
        · have hval : applyLedgerOp b (LedgerOp.redeem p) = b := by
            simp [applyLedgerOp, redeemPoints, h1, h2]
          rw [hval]
          exact ⟨h0, hint⟩
        · have hval : applyLedgerOp b (LedgerOp.redeem p) = b - (p : ℚ) := by
            simp [applyLedgerOp, redeemPoints, h1, h2]
          rw [hval]
          refine ⟨by linarith [not_lt.mp h2], ?_⟩
          obtain ⟨n, rfl⟩ := hint
          exact ⟨n - p, by push_cast; ring⟩

theorem foldl_ledger_nonneg_int (ops : List LedgerOp) (b : ℚ)
    (h0 : 0 ≤ b) (hint : ∃ n : ℤ, b = (n : ℚ)) :
    0 ≤ List.foldl applyLedgerOp b ops
    ∧ ∃ n : ℤ, List.foldl applyLedgerOp b ops = (n : ℚ) := by
  induction ops generalizing b with
  | nil => exact ⟨h0, hint⟩
  | cons op rest ih =>
      have h := applyLedgerOp_nonneg_int b op h0 hint
      exact ih _ h.1 h.2

theorem qualityScore_bounds (q : SegregationQuality) :
    0 ≤ qualityScore q ∧ qualityScore q ≤ 10 := by
  cases q <;> simp [qualityScore]

theorem applyComplianceOp_mem_range (st : ComplianceState) (op : ComplianceOp)
    (h0 : 0 ≤ st.score) (h1 : st.score ≤ 100)
    (hop : ∀ v : ℤ, op = ComplianceOp.assessment v → 0 ≤ v ∧ v ≤ 100) :
    0 ≤ (applyComplianceOp st op).score ∧ (applyComplianceOp st op).score ≤ 100 := by
  cases op with
  | pickupQuality q =>
      have hq := qualityScore_bounds q
      dsimp [applyComplianceOp, pickupCompleteScore]
      omega
  | rejection r =>
      dsimp [applyComplianceOp, rejectPickup]
      omega
  | assessment v =>
      have hv := hop v rfl
      dsimp [applyComplianceOp, setSegregationStatus]
      omega

theorem foldl_compliance_range (ops : List ComplianceOp) (st : ComplianceState)
    (h0 : 0 ≤ st.score) (h1 : st.score ≤ 100)
    (h : ∀ v : ℤ, ComplianceOp.assessment v ∈ ops → 0 ≤ v ∧ v ≤ 100) :
    0 ≤ (List.foldl applyComplianceOp st ops).score
    ∧ (List.foldl applyComplianceOp st ops).score ≤ 100 := by
  induction ops generalizing st with
  | nil => exact ⟨h0, h1⟩
  | cons op rest ih =>
      have hstep := applyComplianceOp_mem_range st op h0 h1
        (fun v hv => h v (by rw [← hv]; exact List.mem_cons_self op rest))
      exact ih _ hstep.1 hstep.2 (fun v hv => h v (List.mem_cons_of_mem _ hv))

theorem lookupBalance_eq_none_iff (accounts : List (ℕ × ℚ)) (id : ℕ) :
    lookupBalance accounts id = none ↔ ∀ a ∈ accounts, a.1 ≠ id := by
  unfold lookupBalance
  simp [List.find?_eq_none]

theorem updateBalance_keys (accounts : List (ℕ × ℚ)) (id : ℕ) (nb : ℚ) :
    (updateBalance accounts id nb).map Prod.fst = accounts.map Prod.fst := by
  induction accounts with
  | nil => rfl
  | cons a rest ih =>
      simp only [updateBalance, List.map_cons] at ih ⊢
      by_cases h : a.1 = id <;> simp [h, ih]

theorem updateBalance_of_forall_ne (accounts : List (ℕ × ℚ)) (id : ℕ) (nb : ℚ)
    (h : ∀ a ∈ accounts, a.1 ≠ id) : updateBalance accounts id nb = accounts := by
  induction accounts with
  | nil => rfl
  | cons a rest ih =>
      simp only [updateBalance, List.map_cons]
      rw [if_neg (h a (List.mem_cons_self a rest))]
      exact congrArg (a :: .) (ih (fun x hx => h x (List.mem_cons_of_mem _ hx)))

theorem sum_updateBalance (accounts : List (ℕ × ℚ)) (id : ℕ) (b nb : ℚ)
    (hnd : (accounts.map Prod.fst).Nodup) (hb : lookupBalance accounts id = some b) :
    ((updateBalance accounts id nb).map (fun a => a.2)).sum
      = (accounts.map (fun a => a.2)).sum - b + nb := by
  induction accounts with
  | nil => simp [lookupBalance] at hb
  | cons a rest ih =>
      rw [List.map_cons, List.nodup_cons] at hnd
      by_cases h : a.1 = id
      · have hb' : a.2 = b := by
          simp [lookupBalance, List.find?_cons, h] at hb
          exact hb
        have hrest : ∀ x ∈ rest, x.1 ≠ id := by
          intro x hx
          have := hnd.1
          rw [h] at this
          intro hxid
          exact this (hxid ▸ List.mem_map_of_mem Prod.fst hx)
        simp only [updateBalance, List.map_cons, if_pos h]
        rw [show List.map (fun a => if a.1 = id then (a.1, nb) else a) rest
              = updateBalance rest id nb from rfl,
          updateBalance_of_forall_ne rest id nb hrest]
        simp [hb']
        ring
      · have hb' : lookupBalance rest id = some b := by
          simpa [lookupBalance, List.find?_cons, h] using hb
        simp only [updateBalance, List.map_cons, if_neg h]
        rw [show List.map (fun a => if a.1 = id then (a.1, nb) else a) rest
              = updateBalance rest id nb from rfl]
        simp only [List.sum_cons]
        rw [ih hnd.2 hb']
        ring

theorem applySystemOp_invariant (st : SystemState) (op : SystemOp)
    (hnd : (st.accounts.map Prod.fst).Nodup)
    (hsum : sumBalances st = netPointsInCirculation st) :
    ((applySystemOp st op).accounts.map Prod.fst).Nodup
    ∧ sumBalances (applySystemOp st op) = netPointsInCirculation (applySystemOp st op) := by
  cases op with
  | register id =>
      rcases hlook : lookupBalance st.accounts id with _ | b
      · have hfresh : ∀ a ∈ st.accounts, a.1 ≠ id :=
          (lookupBalance_eq_none_iff st.accounts id).mp hlook
        have hnotmem : id ∉ st.accounts.map Prod.fst := by
          intro hmem
          obtain ⟨a, ha, hfst⟩ := List.mem_map.mp hmem
          exact hfresh a ha hfst
        constructor
        · simp only [applySystemOp, hlook, List.map_append]
          simp [List.Nodup.append, hnd, hnotmem, List.disjoint_singleton]
        · simp [applySystemOp, hlook, sumBalances, netPointsInCirculation] at hsum ⊢
          exact hsum
      · simp only [applySystemOp, hlook]
        exact ⟨hnd, hsum⟩
  | bulkReward id q g s =>
      rcases hlook : lookupBalance st.accounts id with _ | b
      · simp only [applySystemOp, hlook]
        exact ⟨hnd, hsum⟩
      · rcases hbr : bulkGeneratorReward b q g s with _ | r
        · simp only [applySystemOp, hlook, hbr]
          exact ⟨hnd, hsum⟩
        · have hr : r.newBalance = b + (r.pointsAwarded : ℚ) := by
            unfold bulkGeneratorReward at hbr
            split at hbr
            · cases hbr
              rfl
            · cases hbr
          constructor
          · simp only [applySystemOp, hlook, hbr]
            rw [updateBalance_keys]
            exact hnd
          · simp only [applySystemOp, hlook, hbr, sumBalances, netPointsInCirculation]
            rw [sum_updateBalance st.accounts id b r.newBalance hnd hlook, hr]
            unfold sumBalances netPointsInCirculation at hsum
            simp [hsum]
            ring
  | citizenBonus id p reason =>
      rcases hlook : lookupBalance st.accounts id with _ | b
      · simp only [applySystemOp, hlook]
        exact ⟨hnd, hsum⟩
      · by_cases hval : p = 0 ∨ reason = ""
        · have hca : citizenAward b p reason = (b, CitizenAwardOutcome.validationError) := by
            simp [citizenAward, hval]
          simp only [applySystemOp, hlook, hca]
          exact ⟨hnd, hsum⟩
        · have hca : citizenAward b p reason
              = (b + p, CitizenAwardOutcome.success (b + p)) := by
            simp [citizenAward, hval]
          constructor
          · simp only [applySystemOp, hlook, hca]
            rw [updateBalance_keys]
            exact hnd
          · simp only [applySystemOp, hlook, hca, sumBalances, netPointsInCirculation]
            rw [sum_updateBalance st.accounts id b (b + p) hnd hlook]
            unfold sumBalances netPointsInCirculation at hsum
            simp [hsum]
            ring
  | redemption id p =>
      rcases hlook : lookupBalance st.accounts id with _ | b
      · simp only [applySystemOp, hlook]
        exact ⟨hnd, hsum⟩
      · by_cases h1 : p < 1
        · have hrp : redeemPoints ⟨b, []⟩ p = (⟨b, []⟩, RedeemOutcome.validationError) := by
            simp [redeemPoints, h1]
          simp only [applySystemOp, hlook, hrp]
          exact ⟨hnd, hsum⟩
        · by_cases h2 : b < (p : ℚ)
          · have hrp : redeemPoints ⟨b, []⟩ p
                = (⟨b, []⟩, RedeemOutcome.insufficientPoints b p) := by
              simp [redeemPoints, h1, h2]
            simp only [applySystemOp, hlook, hrp]
            exact ⟨hnd, hsum⟩
          · have hrp : redeemPoints ⟨b, []⟩ p
                = (⟨b - (p : ℚ), [(p : ℚ)]⟩,
                   RedeemOutcome.success b (b - (p : ℚ)) p) := by
              simp [redeemPoints, h1, h2]
            constructor
            · simp only [applySystemOp, hlook, hrp]
              rw [updateBalance_keys]
              exact hnd
            · simp only [applySystemOp, hlook, hrp, sumBalances, netPointsInCirculation]
              rw [sum_updateBalance st.accounts id b (b - (p : ℚ)) hnd hlook]
              unfold sumBalances netPointsInCirculation at hsum
              simp [hsum]
              ring

theorem foldl_system_invariant (ops : List SystemOp) (st : SystemState)
    (hnd : (st.accounts.map Prod.fst).Nodup)
    (hsum : sumBalances st = netPointsInCirculation st) :
    ((List.foldl applySystemOp st ops).accounts.map Prod.fst).Nodup
    ∧ sumBalances (List.foldl applySystemOp st ops)
      = netPointsInCirculation (List.foldl applySystemOp st ops) := by
  induction ops generalizing st with
  | nil => exact ⟨hnd, hsum⟩
  | cons op rest ih =>
      have h := applySystemOp_invariant st op hnd hsum
      exact ih _ h.1 h.2

/-! ## Claims -/

/-- C1: starting from a freshly created account (balance 0), after every operation of any
sequence of awardPoints/redeemPoints operations the point balance is an integer ≥ 0;
an award with quantity ≥ 0 never decreases the balance, and a redemption that would drive
the balance negative is rejected and leaves the balance unchanged. -/
theorem C1_nonneg_balance :
    (∀ (ops : List LedgerOp) (k : ℕ),
        0 ≤ List.foldl applyLedgerOp 0 (ops.take k)
        ∧ ∃ n : ℤ, List.foldl applyLedgerOp 0 (ops.take k) = (n : ℚ))
    ∧ (∀ (b q s : ℚ) (g : QualityGrade), 0 ≤ q →
        b ≤ applyLedgerOp b (LedgerOp.award q g s))
    ∧ (∀ (b : ℚ) (p : ℤ), b - (p : ℚ) < 0 →
        applyLedgerOp b (LedgerOp.redeem p) = b) := by
  refine ⟨?_, ?_, ?_⟩
  · intro ops k
    exact foldl_ledger_nonneg_int (ops.take k) 0 le_rfl ⟨0, by norm_num⟩
  · intro b q s g _
    by_cases hc : 0 ≤ q ∧ 0 ≤ s ∧ s ≤ 100
    · have hval : applyLedgerOp b (LedgerOp.award q g s)
          = b + (totalPoints q g s : ℚ) := by
        simp [applyLedgerOp, bulkGeneratorReward, hc]
      rw [hval]
      have := totalPoints_nonneg g hc.1 hc.2.1
      have hq : (0 : ℚ) ≤ (totalPoints q g s : ℚ) := by exact_mod_cast this
      linarith
    · have hval : applyLedgerOp b (LedgerOp.award q g s) = b := by
        simp [applyLedgerOp, bulkGeneratorReward, hc]
      rw [hval]
  · intro b p hneg
    have h2 : b < (p : ℚ) := by linarith
    by_cases h1 : p < 1
    · simp [applyLedgerOp, redeemPoints, h1]
    · simp [applyLedgerOp, redeemPoints, h1, h2]

/-- Closed instance of C1: the award/redeem scenario of the spec, an award on balance 20,
and the rejected over-redemption at balance 20. -/
theorem C1_nonneg_balance_witness :
    (0 ≤ List.foldl applyLedgerOp 0
          (([LedgerOp.award 100 QualityGrade.A 100, LedgerOp.redeem 25]).take 2)
        ∧ ∃ n : ℤ, List.foldl applyLedgerOp 0
            (([LedgerOp.award 100 QualityGrade.A 100, LedgerOp.redeem 25]).take 2) = (n : ℚ))
    ∧ (20 : ℚ) ≤ applyLedgerOp 20 (LedgerOp.award 100 QualityGrade.A 100)
    ∧ applyLedgerOp 20 (LedgerOp.redeem 25) = 20 :=
  ⟨C1_nonneg_balance.1 ([LedgerOp.award 100 QualityGrade.A 100, LedgerOp.redeem 25]) 2,
   C1_nonneg_balance.2.1 20 100 100 QualityGrade.A (by norm_num),
   C1_nonneg_balance.2.2 20 25 (by norm_num)⟩

/-- C2 counterexample: the direct assessment set (PUT /household/segregation-status) does
not clamp — a single assessment operation with value 150 drives the compliance score to
150 > 100, refuting the claim that every compliance operation clamps its result to
[0, 100]. -/
theorem C2_score_clamp_counterexample :
    (List.foldl applyComplianceOp initialCompliance ([ComplianceOp.assessment 150])).score
      = 150
    ∧ ¬ (List.foldl applyComplianceOp initialCompliance
          ([ComplianceOp.assessment 150])).score ≤ 100 := by
  refine ⟨?_, ?_⟩ <;>
    simp [applyComplianceOp, setSegregationStatus, initialCompliance]

/-- C2 amended: the two delta operations (pickup-quality and rejection) clamp and keep the
compliance score in [0, 100], but the direct assessment set stores the submitted value
unclamped; the invariant therefore holds for exactly those operation sequences whose
assessment values all lie in [0, 100]. -/
theorem C2_score_clamp_amended (ops : List ComplianceOp)
    (h : ∀ v : ℤ, ComplianceOp.assessment v ∈ ops → 0 ≤ v ∧ v ≤ 100) :
    0 ≤ (List.foldl applyComplianceOp initialCompliance ops).score
    ∧ (List.foldl applyComplianceOp initialCompliance ops).score ≤ 100 :=
  foldl_compliance_range ops initialCompliance (by norm_num [initialCompliance])
    (by norm_num [initialCompliance]) h

/-- Closed instance of C2 (amended) on a concrete sequence containing all three operation
kinds, with its single assessment value inside [0, 100]. -/
theorem C2_score_clamp_witness :
    0 ≤ (List.foldl applyComplianceOp initialCompliance
          ([ComplianceOp.pickupQuality SegregationQuality.excellent,
            ComplianceOp.assessment 40,
            ComplianceOp.rejection ("mixed waste")])).score
    ∧ (List.foldl applyComplianceOp initialCompliance
          ([ComplianceOp.pickupQuality SegregationQuality.excellent,
            ComplianceOp.assessment 40,
            ComplianceOp.rejection ("mixed waste")])).score ≤ 100 :=
  C2_score_clamp_amended
    ([ComplianceOp.pickupQuality SegregationQuality.excellent,
      ComplianceOp.assessment 40,
      ComplianceOp.rejection ("mixed waste")])
    (by intro v hv; simp at hv; omega)

/-- C3: for a validated award (quantity ≥ 0, grade in {A, B, C, D} with multipliers
2, 1.5, 1, 0.5, segregation score in [0, 100]) the points awarded equal
⌊⌊quantity * 0.1⌋ * qualityMultiplier * (segregationScore / 100)⌋
and the balance increases by exactly that amount; in particular
award(quantity 100, grade A, score 100) on balance 0 awards 20 points, new balance 20. -/
theorem C3_award_formula :
    (qualityMultiplier QualityGrade.A = 2 ∧ qualityMultiplier QualityGrade.B = 3 / 2
      ∧ qualityMultiplier QualityGrade.C = 1 ∧ qualityMultiplier QualityGrade.D = 1 / 2)
    ∧ (∀ (b q s : ℚ) (g : QualityGrade), 0 ≤ q → 0 ≤ s → s ≤ 100 →
        bulkGeneratorReward b q g s
          = some ⟨⌊(⌊q * (1 / 10)⌋ : ℚ) * qualityMultiplier g * (s / 100)⌋,
                  b + (⌊(⌊q * (1 / 10)⌋ : ℚ) * qualityMultiplier g * (s / 100)⌋ : ℚ)⟩)
    ∧ bulkGeneratorReward 0 100 QualityGrade.A 100 = some ⟨20, 20⟩ := by
  refine ⟨⟨rfl, rfl, rfl, rfl⟩, ?_, ?_⟩
  · intro b q s g hq hs0 hs1
    simp [bulkGeneratorReward, totalPoints, basePoints, hq, hs0, hs1]
  · norm_num [bulkGeneratorReward, totalPoints, basePoints, qualityMultiplier]

/-- Closed instance of C3: the formula instantiated at balance 5, quantity 42 kg, grade B,
score 80 (base 4, 4 * 1.5 * 0.8 = 4.8, floor 4). -/
theorem C3_award_formula_witness :
    bulkGeneratorReward 5 42 QualityGrade.B 80
      = some ⟨⌊(⌊(42 : ℚ) * (1 / 10)⌋ : ℚ) * qualityMultiplier QualityGrade.B * ((80 : ℚ) / 100)⌋,
              5 + (⌊(⌊(42 : ℚ) * (1 / 10)⌋ : ℚ) * qualityMultiplier QualityGrade.B * ((80 : ℚ) / 100)⌋ : ℚ)⟩ :=
  C3_award_formula.2.1 5 42 80 QualityGrade.B (by norm_num) (by norm_num) (by norm_num)

/-- C4: on an existing account, a redeem request (validated: integer points ≥ 1) fails with
the insufficient-points error carrying both the available and the requested amounts exactly
when the requested points exceed the balance, in which case nothing is written; otherwise
the balance drops by exactly the requested points, the redemption is recorded, and the
response reports previousBalance, newBalance and pointsRedeemed. -/
theorem C4_redeem_insufficient :
    ∀ (st : RedeemState) (points : ℤ), 1 ≤ points →
      (((redeemPoints st points).2
          = RedeemOutcome.insufficientPoints st.balance points) ↔ st.balance < (points : ℚ))
      ∧ (st.balance < (points : ℚ) → (redeemPoints st points).1 = st)
      ∧ ((points : ℚ) ≤ st.balance →
          (redeemPoints st points).1
            = { balance := st.balance - (points : ℚ),
                redemptions := st.redemptions ++ [(points : ℚ)] }
          ∧ (redeemPoints st points).2
            = RedeemOutcome.success st.balance (st.balance - (points : ℚ)) points) := by
  intro st points hp
  have h1 : ¬ points < 1 := by omega
  refine ⟨⟨?_, ?_⟩, ?_, ?_⟩
  · intro hout
    by_contra hge
    simp [redeemPoints, h1, hge] at hout
  · intro hlt
    simp [redeemPoints, h1, hlt]
  · intro hlt
    simp [redeemPoints, h1, hlt]
  · intro hge
    have hlt : ¬ st.balance < (points : ℚ) := not_lt.mpr hge
    exact ⟨by simp [redeemPoints, h1, hlt], by simp [redeemPoints, h1, hlt]⟩

/-- Closed instance of C4: the spec scenario redeem(25) against balance 20 fails with
available 20 / requested 25 and leaves the state unchanged, and redeem(5) against balance 20
succeeds with previous balance 20, new balance 15. -/
theorem C4_redeem_insufficient_witness :
    ((redeemPoints ⟨20, []⟩ 25).2 = RedeemOutcome.insufficientPoints 20 25
      ∧ (redeemPoints ⟨20, []⟩ 25).1 = (⟨20, []⟩ : RedeemState))
    ∧ ((redeemPoints ⟨20, []⟩ 5).1
        = { balance := 20 - ((5 : ℤ) : ℚ), redemptions := [] ++ [((5 : ℤ) : ℚ)] }
      ∧ (redeemPoints ⟨20, []⟩ 5).2 = RedeemOutcome.success 20 (20 - ((5 : ℤ) : ℚ)) 5) :=
  ⟨⟨(C4_redeem_insufficient ⟨20, []⟩ 25 (by norm_num)).1.mpr (by norm_num),
    (C4_redeem_insufficient ⟨20, []⟩ 25 (by norm_num)).2.1 (by norm_num)⟩,
   (C4_redeem_insufficient ⟨20, []⟩ 5 (by norm_num)).2.2 (by norm_num)⟩

/-- C5 counterexample: the payment route only guards against status `paid`
(incentives.js line 409), so a penalty whose status is `cancelled` — not `issued` — is
accepted and transitioned to `paid`, refuting "payPenalty succeeds only on a penalty whose
status is Issued" and "never from any other status to Paid". -/
theorem C5_payment_guard_counterexample :
    (⟨500, PenaltyStatus.cancelled, none, none, none, 0⟩ : Penalty).status
        ≠ PenaltyStatus.issued
    ∧ (payPenalty ⟨500, PenaltyStatus.cancelled, none, none, none, 0⟩ 500 ("cash") 0).2
        = PayOutcome.success
    ∧ (payPenalty ⟨500, PenaltyStatus.cancelled, none, none, none, 0⟩ 500 ("cash") 0).1.status
        = PenaltyStatus.paid := by
  refine ⟨by simp, ?_, ?_⟩ <;> simp [payPenalty]

/-- C5 amended: payPenalty succeeds exactly on a penalty whose status is anything but Paid
(Issued, Overdue or Cancelled alike), given truthy inputs and paidAmount ≥ amount; a Paid
penalty is never modified (no backward transition), every success sets status Paid, and
whenever a payment sets status Paid the recorded paidAmount ≥ amount. -/
theorem C5_payment_guard_amended (p : Penalty) (a : ℚ) (m : String) (t : ℕ) :
    ((payPenalty p a m t).2 = PayOutcome.success
      ↔ (m ≠ "" ∧ a ≠ 0 ∧ p.status ≠ PenaltyStatus.paid ∧ p.amount ≤ a))
    ∧ (p.status = PenaltyStatus.paid → (payPenalty p a m t).1 = p)
    ∧ ((payPenalty p a m t).2 = PayOutcome.success →
        (payPenalty p a m t).1.status = PenaltyStatus.paid
        ∧ (payPenalty p a m t).1.paidAmount = some a
        ∧ p.amount ≤ a)
    ∧ ((payPenalty p a m t).2 ≠ PayOutcome.success → (payPenalty p a m t).1 = p) := by
  by_cases hval : m = "" ∨ a = 0
  · have hne : ¬ (m ≠ "" ∧ a ≠ 0 ∧ p.status ≠ PenaltyStatus.paid ∧ p.amount ≤ a) := by
      rcases hval with h | h <;> simp [h]
    simp [payPenalty, hval, hne]
  · by_cases hpaid : p.status = PenaltyStatus.paid
    · simp [payPenalty, hval, hpaid]
    · by_cases hamt : a < p.amount
      · have hne : ¬ p.amount ≤ a := not_le.mpr hamt
        simp [payPenalty, hval, hpaid, hamt, hne]
      · push_neg at hval
        simp [payPenalty, hval.1, hval.2, hpaid, hamt, not_le.mp, le_of_not_lt hamt]

/-- Closed instance of C5 (amended): paying an issued penalty of 500 with 500 succeeds,
sets status Paid and records paidAmount 500 ≥ 500. -/
theorem C5_payment_guard_witness :
    (payPenalty ⟨500, PenaltyStatus.issued, none, none, none, 0⟩ 500 ("upi") 7).1.status
        = PenaltyStatus.paid
    ∧ (payPenalty ⟨500, PenaltyStatus.issued, none, none, none, 0⟩ 500 ("upi") 7).1.paidAmount
        = some 500
    ∧ (⟨500, PenaltyStatus.issued, none, none, none, 0⟩ : Penalty).amount ≤ 500 :=
  (C5_payment_guard_amended ⟨500, PenaltyStatus.issued, none, none, none, 0⟩ 500 ("upi") 7).2.2.1
    ((C5_payment_guard_amended ⟨500, PenaltyStatus.issued, none, none, none, 0⟩ 500 ("upi") 7).1.mpr
      (by refine ⟨by simp, by norm_num, by simp, by norm_num⟩))

/-- C6: paying the same penalty twice (valid payment the second time) fails with
AlreadyPaid on the second call and the record still carries only the first payment's
paidAt, paidAmount and paymentMethod. -/
theorem C6_pay_twice (p : Penalty) (a₁ a₂ : ℚ) (m₁ m₂ : String) (t₁ t₂ : ℕ)
    (hfirst : (payPenalty p a₁ m₁ t₁).2 = PayOutcome.success)
    (hm₂ : m₂ ≠ "") (ha₂ : a₂ ≠ 0) :
    (payPenalty (payPenalty p a₁ m₁ t₁).1 a₂ m₂ t₂).2 = PayOutcome.alreadyPaid
    ∧ (payPenalty (payPenalty p a₁ m₁ t₁).1 a₂ m₂ t₂).1 = (payPenalty p a₁ m₁ t₁).1
    ∧ (payPenalty p a₁ m₁ t₁).1.paidAt = some t₁
    ∧ (payPenalty p a₁ m₁ t₁).1.paidAmount = some a₁
    ∧ (payPenalty p a₁ m₁ t₁).1.paymentMethod = some m₁ := by
  by_cases hval : m₁ = "" ∨ a₁ = 0
  · simp [payPenalty, hval] at hfirst
  · by_cases hpaid : p.status = PenaltyStatus.paid
    · simp [payPenalty, hval, hpaid] at hfirst
    · by_cases hamt : a₁ < p.amount
      · simp [payPenalty, hval, hpaid, hamt] at hfirst
      · have hp₁ : (payPenalty p a₁ m₁ t₁).1
            = { p with
                status := PenaltyStatus.paid,
                paidAt := some t₁,
                paidAmount := some a₁,
                paymentMethod := some m₁ } := by
          simp [payPenalty, hval, hpaid, hamt]
        rw [hp₁]
        have hval₂ : ¬ (m₂ = "" ∨ a₂ = 0) := by simp [hm₂, ha₂]
        simp [payPenalty, hval₂]

/-- Closed instance of C6: an issued penalty of 500 paid with 500 twice. -/
theorem C6_pay_twice_witness :
    (payPenalty (payPenalty ⟨500, PenaltyStatus.issued, none, none, none, 0⟩ 500 ("cash") 1).1
        600 ("upi") 2).2 = PayOutcome.alreadyPaid
    ∧ (payPenalty (payPenalty ⟨500, PenaltyStatus.issued, none, none, none, 0⟩ 500 ("cash") 1).1
        600 ("upi") 2).1
      = (payPenalty ⟨500, PenaltyStatus.issued, none, none, none, 0⟩ 500 ("cash") 1).1
    ∧ (payPenalty ⟨500, PenaltyStatus.issued, none, none, none, 0⟩ 500 ("cash") 1).1.paidAt
      = some 1
    ∧ (payPenalty ⟨500, PenaltyStatus.issued, none, none, none, 0⟩ 500 ("cash") 1).1.paidAmount
      = some 500
    ∧ (payPenalty ⟨500, PenaltyStatus.issued, none, none, none, 0⟩ 500 ("cash") 1).1.paymentMethod
      = some ("cash") :=
  C6_pay_twice ⟨500, PenaltyStatus.issued, none, none, none, 0⟩ 500 600 ("cash") ("upi") 1 2
    (by simp [payPenalty]) (by simp) (by norm_num)

/-- C7 counterexample: `penaltySchema` validates `amount` with `Joi.number().min(0)`
(incentives.js line 32), so a penalty with amount 0 — a non-positive amount — passes
validation and is created, refuting "accepts only amount > 0". -/
theorem C7_impose_counterexample :
    imposePenalty 0 0 none ⟨0, []⟩
      = some (⟨0, PenaltyStatus.issued, none, none, none, 30 * msPerDay⟩,
              ⟨0, [⟨0, ("unpaid")⟩]⟩) := by
  norm_num [imposePenalty]

/-- C7 amended: issuePenalty accepts any amount ≥ 0 (only negative amounts are rejected as
validation errors), defaults dueDate to issue time plus 30 days when omitted, creates the
penalty with status Issued while appending a summary entry (status `'unpaid'`) to the
violator's history, and leaves the violator's point balance unchanged. -/
theorem C7_impose_amended (now : ℕ) (amount : ℚ) (dueDate : Option ℕ)
    (v : ViolatorAccount) :
    (amount < 0 → imposePenalty now amount dueDate v = none)
    ∧ (0 ≤ amount →
        imposePenalty now amount dueDate v
          = some ({ amount := amount,
                    status := PenaltyStatus.issued,
                    paidAt := none,
                    paidAmount := none,
                    paymentMethod := none,
                    dueDate := dueDate.getD (now + 30 * msPerDay) },
                  { pointBalance := v.pointBalance,
                    penaltyHistory :=
                      v.penaltyHistory ++ [{ amount := amount, status := "unpaid" }] })) := by
  constructor
  · intro hneg
    simp [imposePenalty, not_le.mpr hneg]
  · intro hpos
    simp [imposePenalty, hpos]

/-- Closed instance of C7 (amended): imposing a penalty of 500 at time 1000 with no due
date on a violator holding 40 points and one prior history entry. -/
theorem C7_impose_witness :
    imposePenalty 1000 500 none ⟨40, [⟨200, ("unpaid")⟩]⟩
      = some ({ amount := 500,
                status := PenaltyStatus.issued,
                paidAt := none,
                paidAmount := none,
                paymentMethod := none,
                dueDate := (none : Option ℕ).getD (1000 + 30 * msPerDay) },
              { pointBalance := 40,
                penaltyHistory :=
                  [⟨200, ("unpaid")⟩] ++ [{ amount := 500, status := "unpaid" }] }) :=
  (C7_impose_amended 1000 500 none ⟨40, [⟨200, ("unpaid")⟩]⟩).2 (by norm_num)

/-- C9: completing a pickup adds exactly +10 / +8 / +4 / +0 for
excellent / good / poor / rejected segregation quality, clamped to at most 100; rejecting a
pickup subtracts exactly 15, clamped to at least 0, and appends a ViolationRecord of type
`pickup_rejection` to the household's violation history. -/
theorem C9_compliance_deltas :
    (∀ s : ℤ,
        pickupCompleteScore s SegregationQuality.excellent = min 100 (s + 10)
        ∧ pickupCompleteScore s SegregationQuality.good = min 100 (s + 8)
        ∧ pickupCompleteScore s SegregationQuality.poor = min 100 (s + 4)
        ∧ pickupCompleteScore s SegregationQuality.rejected = min 100 (s + 0))
    ∧ (∀ (st : ComplianceState) (reason : String),
        (rejectPickup st reason).score = max 0 (st.score - 15)
        ∧ (rejectPickup st reason).violations
          = st.violations ++ [{ type := "pickup_rejection", reason := reason }]) := by
  constructor
  · intro s
    refine ⟨rfl, rfl, rfl, by simp [pickupCompleteScore, qualityScore]⟩
  · intro st reason
    exact ⟨rfl, rfl⟩

/-- C10 counterexample: the citizen bonus award's only validation is JS truthiness, under
which a points value of 0 counts as missing — award(points = 0) is rejected with a 400
instead of setting the balance to currentBalance + 0, refuting "for every numeric points
value ... it sets the citizen's balance to currentBalance + points". -/
theorem C10_citizen_award_counterexample :
    citizenAward 7 0 ("community drive") = (7, CitizenAwardOutcome.validationError)
    ∧ (citizenAward 7 0 ("community drive")).2 ≠ CitizenAwardOutcome.success (7 + 0) := by
  refine ⟨?_, ?_⟩ <;> simp [citizenAward]

/-- C10 amended: the citizen bonus award validates only that citizenId, points, and reason
are truthy (so points = 0 is rejected); for every nonzero numeric points value — with no
range, sign, or integrality check — it sets the balance to currentBalance + points, and a
negative input can drive the resulting balance below zero. -/
theorem C10_citizen_award_amended :
    (∀ (b p : ℚ) (r : String), p ≠ 0 → r ≠ "" →
        citizenAward b p r = (b + p, CitizenAwardOutcome.success (b + p)))
    ∧ citizenAward 0 (-5) ("penalty adjustment")
        = (0 + -5, CitizenAwardOutcome.success (0 + -5))
    ∧ (0 : ℚ) + -5 < 0 := by
  refine ⟨?_, ?_, by norm_num⟩
  · intro b p r hp hr
    simp [citizenAward, hp, hr]
  · simp [citizenAward]

/-- Closed instance of C10 (amended): awarding −5 bonus points to a citizen holding 3
points succeeds and leaves the balance at −2 < 0. -/
theorem C10_citizen_award_witness :
    citizenAward 3 (-5) ("correction") = (3 + -5, CitizenAwardOutcome.success (3 + -5))
    ∧ (3 : ℚ) + -5 < 0 :=
  ⟨C10_citizen_award_amended.1 3 (-5) ("correction") (by norm_num) (by simp),
   by norm_num⟩

/-- C8: after any sequence of ledger operations on an initially empty store (a quiescent
point — each operation has fully completed), the points-in-circulation figure that the
statistics route derives fresh from the stored reward and redemption records
(Σ pointsAwarded − Σ points redeemed) equals the sum of all accounts' point balances. -/
theorem C8_conservation (ops : List SystemOp) :
    netPointsInCirculation (List.foldl applySystemOp initialSystem ops)
      = sumBalances (List.foldl applySystemOp initialSystem ops) :=
  (foldl_system_invariant ops initialSystem
      (by simp [initialSystem])
      (by simp [initialSystem, sumBalances, netPointsInCirculation])).2.symm

end WasteApi
